import Mathlib

/-!
# KifDiff core: shallow embedding and verification

A shallow embedding of the KifDiff DSL front end and execution engine
(`KifDiff/core/lexer.py`, `KifDiff/core/parser.py`, the directive handlers
under `KifDiff/core/directives/` and `src/core/executors/`), together with
theorems checking the natural-language specification against it.

Conventions:
* File contents and documents are `String`s; the character-level algorithms
  work on `List Char` (Python strings are indexed sequences of characters).
* The filesystem is a flat association list from path to file content.
  Directories, permissions and I/O errors are outside the model; the backup
  service, the clipboard (pyperclip) and the regex library (`re`) are the
  external collaborators of spec section 6 and enter only through an
  explicit interface record.
* Loops of the Python source that are not structurally recursive are given
  explicit fuel; every loop consumes at least one character or token per
  iteration, so the fuel chosen by the wrappers is never exhausted on real
  inputs.
-/

/-! ## Python string primitives -/

/-- Whitespace as stripped by Python `str.strip` and `str.rstrip`
(space, tab, CR, LF, vertical tab, form feed). -/
def pySpace (c : Char) : Bool :=
  c = ' ' || c = '\t' || c = '\r' || c = '\n' || c.val = 11 || c.val = 12

/-- Python `str.rstrip()`: drop trailing whitespace. -/
def rstrip (l : List Char) : List Char :=
  (l.reverse.dropWhile pySpace).reverse

/-- Python `str.strip()`: drop leading and trailing whitespace. -/
def pyStrip (l : List Char) : List Char :=
  rstrip (l.dropWhile pySpace)

/-- Python `str.split('\n')`. -/
def splitNL : List Char → List (List Char)
  | [] => [[]]
  | c :: cs =>
    if c = '\n' then [] :: splitNL cs
    else
      match splitNL cs with
      | [] => [[c]]
      | l :: ls => (c :: l) :: ls

/-- Python `'\n'.join(lines)`. -/
def joinNL : List (List Char) → List Char
  | [] => []
  | [l] => l
  | l :: ls => l ++ '\n' :: joinNL ls

/-- Embeds `SearchReplaceDirective.normalize_whitespace`: strip trailing whitespace
from every line (`'\n'.join(line.rstrip() for line in text.split('\n'))`). -/
def normalizeWhitespace (l : List Char) : List Char :=
  joinNL ((splitNL l).map rstrip)

/-- Is `needle` a prefix of `hay`? -/
def isPre : List Char → List Char → Bool
  | [], _ => true
  | _ :: _, [] => false
  | a :: as, b :: bs => a = b && isPre as bs

/-- Python `hay.find(needle)` as an `Option`: index of the first occurrence. -/
def findIdx? (needle : List Char) : List Char → Option Nat
  | [] => if isPre needle [] then some 0 else none
  | c :: rest =>
    if isPre needle (c :: rest) then some 0
    else (findIdx? needle rest).map (· + 1)

/-- Python `needle in hay` (substring containment). -/
def containsSub (needle hay : List Char) : Bool :=
  (findIdx? needle hay).isSome

/-! ## The literal replacement algorithms of `_process_single_block`
(`KifDiff/core/directives/search_replace.py`, lines 237-260). -/

/-- Python `content.replace(before, after, 1)`. -/
def pyReplace1 (content before after : List Char) : List Char :=
  match findIdx? before content with
  | none => content
  | some i => content.take i ++ after ++ content.drop (i + before.length)

/-- The manual left-to-right rebuild used when `count > 1`:
`while replaced < count and before_text in remaining: ...`. -/
def replLoop (before after : List Char) : Nat → List Char → List Char
  | 0, remaining => remaining
  | n + 1, remaining =>
    match findIdx? before remaining with
    | none => remaining
    | some i =>
        remaining.take i ++ after ++
          replLoop before after n (remaining.drop (i + before.length))

/-- The bounded literal replacement exactly as implemented: a single
`str.replace(b, a, 1)` when `count == 1`, otherwise the manual loop. -/
def literalCountReplace (content before after : List Char) (count : Nat) : List Char :=
  if count = 1 then pyReplace1 content before after
  else replLoop before after count content

/-- Python `content.replace(before, after)` for an empty `before`:
the replacement is inserted at every gap, including both ends. -/
def interAll (after : List Char) : List Char → List Char
  | [] => after
  | c :: cs => after ++ c :: interAll after cs

/-- Fueled unbounded greedy replacement (used for a nonempty needle, where
every step consumes at least one character). -/
def replAllF (before after : List Char) : Nat → List Char → List Char
  | 0, remaining => remaining
  | f + 1, remaining =>
    match findIdx? before remaining with
    | none => remaining
    | some i =>
        remaining.take i ++ after ++
          replAllF before after f (remaining.drop (i + before.length))

/-- Python `content.replace(before, after)` (unbounded). -/
def pyReplaceAll (content before after : List Char) : List Char :=
  if before = [] then interAll after content
  else replAllF before after (content.length + 1) content

/-! ## Specification-side view for the bounded replacement (claim C3):
greedy non-overlapping occurrence positions in the original content, and a
rebuild of the output by splicing `after` over those spans. -/

/-- Greedy left-to-right non-overlapping occurrence start positions,
fueled; `base` is the absolute offset of `hay` in the original content. -/
def occsF (needle : List Char) : Nat → List Char → Nat → List Nat
  | 0, _, _ => []
  | f + 1, hay, base =>
    match findIdx? needle hay with
    | none => []
    | some i =>
        (base + i) ::
          occsF needle f (hay.drop (i + needle.length)) (base + i + needle.length)

/-- Greedy non-overlapping occurrence start positions of `needle` in `hay`. -/
def occs (needle hay : List Char) : List Nat :=
  occsF needle (hay.length + 1) hay 0

/-- Splice `after` over the spans of length `L` starting at the listed
absolute positions, copying the segments between spans from `content`;
covers the document exactly up to the end of the last listed span. -/
def spliceTo (content after : List Char) (L : Nat) : Nat → List Nat → List Char
  | _, [] => []
  | start, p :: ps =>
      (content.drop start).take (p - start) ++ after ++
        spliceTo content after L (p + L) ps

/-! ## Lexer (`KifDiff/core/lexer.py`)

The `TokenType` enum is copied from the source. Note that it has no `RUN`
member and the lexer's `directive_map` has no `RUN` entry, although the
parser's AST defines a `RunDirective` and `parser.py` line 388 compares
against a (nonexistent) `TokenType.RUN`. -/

inductive TokenType
  | DIRECTIVE_START
  | CREATE | DELETE | MOVE | READ | TREE
  | SEARCH_AND_REPLACE | OVERWRITE_FILE | FIND
  | BEFORE | END_BEFORE | AFTER | END_AFTER
  | END_CREATE | END_OVERWRITE_FILE | END_SEARCH_AND_REPLACE
  | LPAREN | RPAREN | COMMA | EQUALS
  | IDENTIFIER | NUMBER | STRING | PATH | CONTENT
  | NEWLINE | EOF
deriving DecidableEq, Repr

/-- The `.name` attribute of the Python enum member, used in messages. -/
def ttName : TokenType → String
  | .DIRECTIVE_START => "DIRECTIVE_START"
  | .CREATE => "CREATE"
  | .DELETE => "DELETE"
  | .MOVE => "MOVE"
  | .READ => "READ"
  | .TREE => "TREE"
  | .SEARCH_AND_REPLACE => "SEARCH_AND_REPLACE"
  | .OVERWRITE_FILE => "OVERWRITE_FILE"
  | .FIND => "FIND"
  | .BEFORE => "BEFORE"
  | .END_BEFORE => "END_BEFORE"
  | .AFTER => "AFTER"
  | .END_AFTER => "END_AFTER"
  | .END_CREATE => "END_CREATE"
  | .END_OVERWRITE_FILE => "END_OVERWRITE_FILE"
  | .END_SEARCH_AND_REPLACE => "END_SEARCH_AND_REPLACE"
  | .LPAREN => "LPAREN"
  | .RPAREN => "RPAREN"
  | .COMMA => "COMMA"
  | .EQUALS => "EQUALS"
  | .IDENTIFIER => "IDENTIFIER"
  | .NUMBER => "NUMBER"
  | .STRING => "STRING"
  | .PATH => "PATH"
  | .CONTENT => "CONTENT"
  | .NEWLINE => "NEWLINE"
  | .EOF => "EOF"

structure Token where
  type : TokenType
  value : String
  line : Nat
  column : Nat
deriving DecidableEq, Repr

/-- The lexer's position state: the remaining input together with the
1-based line/column bookkeeping of `Lexer.advance`. -/
structure Cursor where
  rest : List Char
  line : Nat
  col : Nat
deriving DecidableEq, Repr

/-- Embeds `Lexer.advance` (one character). -/
def Cursor.adv1 (c : Cursor) : Cursor :=
  match c.rest with
  | [] => c
  | ch :: rs =>
    if ch = '\n' then { rest := rs, line := c.line + 1, col := 1 }
    else { rest := rs, line := c.line, col := c.col + 1 }

/-- Advance `n` characters. -/
def Cursor.advN : Cursor → Nat → Cursor
  | c, 0 => c
  | c, n + 1 => Cursor.advN c.adv1 n

/-- Directive-name characters (`isupper` or underscore). -/
def isDirNameChar (c : Char) : Bool := c.isUpper || c = '_'

/-- Identifier characters (`isalnum` or underscore). -/
def isIdentChar (c : Char) : Bool := c.isAlphanum || c = '_'

/-- Whitespace skipped by `Lexer.skip_whitespace()` (newlines excluded, as
at every call site in the lexer). -/
def isWS (c : Char) : Bool := c = ' ' || c = '\t' || c = '\r'

def Cursor.skipWS (c : Cursor) : Cursor :=
  c.advN (c.rest.takeWhile isWS).length

/-- Embeds `read_directive_name`. -/
def Cursor.takeName (c : Cursor) : String × Cursor :=
  let s := c.rest.takeWhile isDirNameChar
  (String.mk s, c.advN s.length)

/-- Embeds `read_identifier`. -/
def Cursor.takeIdent (c : Cursor) : String × Cursor :=
  let s := c.rest.takeWhile isIdentChar
  (String.mk s, c.advN s.length)

/-- Embeds `read_number`. -/
def Cursor.takeNumber (c : Cursor) : String × Cursor :=
  let s := c.rest.takeWhile Char.isDigit
  (String.mk s, c.advN s.length)

/-- Embeds `read_until_newline`. -/
def Cursor.takeUntilNL (c : Cursor) : String × Cursor :=
  let s := c.rest.takeWhile (fun ch => !(ch = '\n'))
  (String.mk s, c.advN s.length)

/-- The escape map of `read_string` (`\n \t \r`; every other escaped
character, the backslash and the quote included, stands for itself). -/
def escMap (d : Char) : Char :=
  if d = 'n' then '\n'
  else if d = 't' then '\t'
  else if d = 'r' then '\r'
  else d

/-- The scanning loop of `read_string`, on the characters after the opening
quote; returns the unescaped value and the number of characters consumed. -/
def readStrAux (q : Char) : List Char → List Char × Nat
  | [] => ([], 0)
  | c :: rs =>
    if c = q then ([], 1)
    else if c = '\\' then
      match rs with
      | [] => ([], 1)
      | d :: rs2 =>
        let r := readStrAux q rs2
        (escMap d :: r.1, r.2 + 2)
    else
      let r := readStrAux q rs
      (c :: r.1, r.2 + 1)

/-- Embeds `Lexer.error`: message format of the raised `SyntaxError`. -/
def lexError (cur : Cursor) (msg : String) : String :=
  "Lexer error at line " ++ toString cur.line ++ ", column " ++
    toString cur.col ++ ": " ++ msg

/-- Embeds `directive_map` of `tokenize_directive_line`. It has no `RUN` entry. -/
def directiveMap (name : String) : Option TokenType :=
  if name = "CREATE" then some .CREATE
  else if name = "DELETE" then some .DELETE
  else if name = "MOVE" then some .MOVE
  else if name = "READ" then some .READ
  else if name = "TREE" then some .TREE
  else if name = "SEARCH_AND_REPLACE" then some .SEARCH_AND_REPLACE
  else if name = "OVERWRITE_FILE" then some .OVERWRITE_FILE
  else if name = "FIND" then some .FIND
  else if name = "BEFORE" then some .BEFORE
  else if name = "END_BEFORE" then some .END_BEFORE
  else if name = "AFTER" then some .AFTER
  else if name = "END_AFTER" then some .END_AFTER
  else if name = "END_CREATE" then some .END_CREATE
  else if name = "END_OVERWRITE_FILE" then some .END_OVERWRITE_FILE
  else if name = "END_SEARCH_AND_REPLACE" then some .END_SEARCH_AND_REPLACE
  else none

/-- One pass of the parameter-list loop of `tokenize_parameters`:
`key=value` pairs between the parentheses. -/
def lexParamsLoop : Nat → Cursor → List Token → Except String (Cursor × List Token)
  | 0, cur, _ => .error (lexError cur "lexer fuel exhausted")
  | fuel + 1, cur, toks =>
    match cur.rest.head? with
    | none => .error (lexError cur "Expected closing parenthesis")
    | some ch =>
      if ch = ')' then
        .ok (cur.adv1, toks ++ [⟨.RPAREN, ")", cur.line, cur.col + 1 - 1⟩])
      else if ch.isAlpha || ch = '_' then
        let (pname, cur) := cur.takeIdent
        let toks := toks ++ [⟨.IDENTIFIER, pname, cur.line, cur.col - pname.length⟩]
        let cur := cur.skipWS
        match
          (if cur.rest.head? = some '=' then
            let cur := cur.adv1
            let toks := toks ++ [⟨.EQUALS, "=", cur.line, cur.col - 1⟩]
            let cur := cur.skipWS
            match cur.rest.head? with
            | some c2 =>
              if c2 = '"' || c2 = '\'' then
                let r := readStrAux c2 cur.rest.tail
                let cur := cur.advN (1 + r.2)
                let v := String.mk r.1
                .ok (cur, toks ++ [⟨.STRING, v, cur.line, cur.col - v.length⟩])
              else if c2.isDigit then
                let (v, cur) := cur.takeNumber
                .ok (cur, toks ++ [⟨.NUMBER, v, cur.line, cur.col - v.length⟩])
              else if c2.isAlpha then
                let (v, cur) := cur.takeIdent
                .ok (cur, toks ++ [⟨.IDENTIFIER, v, cur.line, cur.col - v.length⟩])
              else .error (lexError cur "Expected parameter value")
            | none => .error (lexError cur "Expected parameter value")
          else .ok (cur, toks) : Except String (Cursor × List Token)) with
        | .error e => .error e
        | .ok (cur, toks) =>
          let cur := cur.skipWS
          if cur.rest.head? = some ',' then
            let cur := cur.adv1
            let toks := toks ++ [⟨.COMMA, ",", cur.line, cur.col - 1⟩]
            lexParamsLoop fuel cur.skipWS toks
          else
            lexParamsLoop fuel cur toks
      else
        -- the Python loop breaks; the closing parenthesis is then required
        if cur.rest.head? = some ')' then
          .ok (cur.adv1, toks ++ [⟨.RPAREN, ")", cur.line, cur.col + 1 - 1⟩])
        else .error (lexError cur "Expected closing parenthesis")

/-- Embeds `tokenize_parameters`: consumes the opening parenthesis, then the loop. -/
def lexParams (cur : Cursor) (toks : List Token) :
    Except String (Cursor × List Token) :=
  let cur2 := cur.adv1
  let toks := toks ++ [⟨.LPAREN, "(", cur2.line, cur2.col - 1⟩]
  lexParamsLoop (cur.rest.length + 1) cur2.skipWS toks

/-- Embeds `tokenize_directive_line`: emit the directive-name token (failing on a
name outside `directive_map`), an optional parameter list, and the trimmed
remainder of the line as a `PATH` token when nonempty. -/
def lexDirectiveLine (name : String) (cur : Cursor) (toks : List Token) :
    Except String (Cursor × List Token) :=
  match directiveMap name with
  | none => .error (lexError cur ("Unknown directive: " ++ name))
  | some tt =>
    let toks := toks ++ [⟨tt, name, cur.line, cur.col⟩]
    let cur := cur.skipWS
    match
      (if cur.rest.head? = some '(' then lexParams cur toks
       else .ok (cur, toks) : Except String (Cursor × List Token)) with
    | .error e => .error e
    | .ok (cur, toks) =>
      let cur := cur.skipWS
      let (remaining, cur) := cur.takeUntilNL
      let stripped := String.mk (pyStrip remaining.data)
      if stripped = "" then .ok (cur, toks)
      else .ok (cur, toks ++ [⟨.PATH, stripped, cur.line, cur.col⟩])

/-- The full lexer state of `Lexer.tokenize`: cursor, emitted tokens, the
content-collection flag, and the pending content buffer with its start
position. -/
structure LexSt where
  cur : Cursor
  toks : List Token
  inContent : Bool
  buf : List Char
  bufLine : Nat
  bufCol : Nat
deriving DecidableEq, Repr

/-- Is the 4-character sentinel `@Kif` at the cursor? -/
def sentinelAt (cur : Cursor) : Bool :=
  cur.rest.head? = some '@' && cur.rest.tail.head? = some 'K' &&
    cur.rest.tail.tail.head? = some 'i' && cur.rest.tail.tail.tail.head? = some 'f'

/-- The checkpointed lookahead of `tokenize` while in content mode:
advance past `@Kif`, skip spaces, read the directive name — and restore the
cursor (a pure function of the cursor, so the rewind is implicit). -/
def peekDirName (cur : Cursor) : String :=
  String.mk (((cur.advN 4).skipWS).rest.takeWhile isDirNameChar)

/-- The names that end content collection: END markers and the BEFORE/AFTER
block starters (`lexer.py` lines 306-308). -/
def contentBreakers : List String :=
  ["END_BEFORE", "END_AFTER", "END_CREATE", "END_OVERWRITE_FILE",
   "END_SEARCH_AND_REPLACE", "BEFORE", "AFTER"]

/-- Buffer one character verbatim (content mode). -/
def bufferOne (st : LexSt) : LexSt :=
  match st.cur.rest with
  | [] => st
  | ch :: _ => { st with cur := st.cur.adv1, buf := st.buf ++ [ch] }

/-- Flush the content buffer as a single CONTENT token and leave content
mode; a no-op when the buffer is empty (as in the source, where the mode is
then cleared by the END-marker handling that follows). -/
def flushBuf (st : LexSt) : LexSt :=
  if st.buf.isEmpty then st
  else
    { st with
      toks := st.toks ++ [⟨.CONTENT, String.mk st.buf, st.bufLine, st.bufCol⟩],
      buf := [], inContent := false }

def endMarkerNames : List String :=
  ["END_BEFORE", "END_AFTER", "END_CREATE", "END_OVERWRITE_FILE",
   "END_SEARCH_AND_REPLACE"]

/-- Directive processing at a sentinel (lexer.py lines 322-365): emit the
DIRECTIVE_START token, read the name, lex the directive line, update the
content-collection mode, and emit a NEWLINE token when one follows. -/
def processDirective (st : LexSt) : Except String LexSt :=
  let lineStart := st.cur.line
  let colStart := st.cur.col
  let cur := st.cur.advN 4
  let toks := st.toks ++ [⟨.DIRECTIVE_START, "@Kif", lineStart, colStart⟩]
  let cur := cur.skipWS
  let (name, cur) := cur.takeName
  if name = "" then .error (lexError cur "Expected directive name after @Kif")
  else
    match lexDirectiveLine name cur toks with
    | .error e => .error e
    | .ok (cur, toks) =>
      let st := { st with cur := cur, toks := toks }
      let st :=
        if name = "CREATE" || name = "OVERWRITE_FILE" || name = "SEARCH_AND_REPLACE" then
          { st with inContent := true, bufLine := st.cur.line, bufCol := st.cur.col }
        else st
      let st := if name ∈ endMarkerNames then { st with inContent := false } else st
      let st :=
        if name = "BEFORE" || name = "AFTER" then
          { st with inContent := true, bufLine := st.cur.line, bufCol := st.cur.col }
        else st
      let st :=
        if st.cur.rest.head? = some '\n' then
          { st with
            toks := st.toks ++ [⟨.NEWLINE, "\\n", st.cur.line, st.cur.col⟩],
            cur := st.cur.adv1 }
        else st
      .ok st

/-- Embeds `skip_comment`: consume up to (excluding) the next newline. -/
def skipComment (cur : Cursor) : Cursor :=
  cur.advN (cur.rest.takeWhile (fun ch => !(ch = '\n'))).length

/-- One iteration of the `while self.pos < len(self.text)` loop of
`Lexer.tokenize`. -/
def lexStep (st : LexSt) : Except String LexSt :=
  if !st.inContent && st.cur.rest.head? = some '#' then
    .ok { st with cur := skipComment st.cur }
  else if sentinelAt st.cur then
    if st.inContent then
      if !(contentBreakers.contains (peekDirName st.cur)) then
        .ok (bufferOne st)
      else
        processDirective (flushBuf st)
    else processDirective st
  else if st.inContent then
    .ok (bufferOne st)
  else
    .ok { st with cur := st.cur.adv1 }

/-- The fueled driver of the tokenize loop. -/
def lexLoop : Nat → LexSt → Except String LexSt
  | 0, st => .error (lexError st.cur "lexer fuel exhausted")
  | fuel + 1, st =>
    if st.cur.rest.isEmpty then .ok st
    else
      match lexStep st with
      | .error e => .error e
      | .ok st' => lexLoop fuel st'

/-- End of `tokenize`: flush any remaining content, then the EOF token. -/
def lexFinish (st : LexSt) : List Token :=
  (if st.buf.isEmpty then st.toks
   else st.toks ++ [⟨.CONTENT, String.mk st.buf, st.bufLine, st.bufCol⟩]) ++
    [⟨.EOF, "", st.cur.line, st.cur.col⟩]

/-- Embeds `Lexer.tokenize`. Every loop iteration consumes at least one character,
so the fuel `length + 1` is never exhausted. -/
def tokenize (text : String) : Except String (List Token) :=
  match lexLoop (text.length + 1) ⟨⟨text.data, 1, 1⟩, [], false, [], 0, 0⟩ with
  | .error e => .error e
  | .ok st => .ok (lexFinish st)

/-! ## AST (`KifDiff/core/ast_nodes.py`) and parser (`KifDiff/core/parser.py`) -/

/-- A parameter value: `parse_parameters` stores a string, an int, or a
boolean (a bare identifier other than true/false is kept, lowercased). -/
inductive PVal
  | bool (b : Bool)
  | int (n : Nat)
  | str (s : String)
deriving DecidableEq, Repr

/-- Parameter maps, with Python-dict assignment and lookup. -/
abbrev Params := List (String × PVal)

def paramsSet (ps : Params) (k : String) (v : PVal) : Params :=
  if ps.any (fun kv => kv.1 == k) then
    ps.map (fun kv => if kv.1 == k then (k, v) else kv)
  else ps ++ [(k, v)]

def paramsGet (ps : Params) (k : String) : Option PVal :=
  (ps.find? (fun kv => kv.1 == k)).map (fun kv => kv.2)

structure BeforeAfterBlock where
  before : String
  after : String
deriving DecidableEq, Repr

/-- The directive variants of `ast_nodes.py`. `RunDirective` exists in the
AST module even though the lexer cannot produce a RUN token. -/
inductive Directive
  | create (line column : Nat) (params : Params) (path content : String)
  | delete (line column : Nat) (params : Params) (path : String)
  | move (line column : Nat) (params : Params) (source dest : String)
  | readf (line column : Nat) (params : Params) (path : String)
  | tree (line column : Nat) (params : Params) (path : String)
  | overwriteFile (line column : Nat) (params : Params) (path content : String)
  | searchAndReplace (line column : Nat) (params : Params) (path : String)
      (blocks : List BeforeAfterBlock)
  | find (line column : Nat) (params : Params) (path : String)
  | run (line column : Nat) (params : Params) (command : String)
deriving DecidableEq, Repr

structure Program where
  directives : List Directive
deriving DecidableEq, Repr

/-- Embeds `Parser.current_token`: the token at `pos`, or the last token. -/
def curTok (toks : List Token) (pos : Nat) : Token :=
  toks.getD pos (toks.getLastD ⟨.EOF, "", 0, 0⟩)

/-- Embeds `Parser.peek(1)`. -/
def peekTok (toks : List Token) (pos : Nat) : Token :=
  toks.getD (pos + 1) (toks.getLastD ⟨.EOF, "", 0, 0⟩)

/-- Embeds `Parser.advance`: the position moves unless already at the last token. -/
def advancePos (toks : List Token) (pos : Nat) : Nat :=
  if pos < toks.length - 1 then pos + 1 else pos

/-- Embeds `Parser.error` message format. -/
def parseErr (tok : Token) (msg : String) : String :=
  "Parser error at line " ++ toString tok.line ++ ", column " ++
    toString tok.column ++ ": " ++ msg

/-- Embeds `Parser.expect`. -/
def expectTok (toks : List Token) (pos : Nat) (tt : TokenType) :
    Except String (Token × Nat) :=
  let tok := curTok toks pos
  if tok.type = tt then .ok (tok, advancePos toks pos)
  else .error (parseErr tok ("Expected " ++ ttName tt ++ ", got " ++ ttName tok.type))

/-- Embeds `Parser.skip_newlines` (fueled; the loop advances at every step). -/
def skipNLsF : Nat → List Token → Nat → Nat
  | 0, _, pos => pos
  | f + 1, toks, pos =>
    if (curTok toks pos).type = .NEWLINE then skipNLsF f toks (advancePos toks pos)
    else pos

def skipNLs (toks : List Token) (pos : Nat) : Nat :=
  skipNLsF (toks.length + 1) toks pos

/-- The value of one parameter, as interpreted by `parse_parameters`. -/
def paramValOf (tok : Token) : Option PVal :=
  match tok.type with
  | .STRING => some (.str tok.value)
  | .NUMBER => some (.int (tok.value.toNat?.getD 0))
  | .IDENTIFIER =>
    let s := tok.value.toLower
    if s = "true" then some (.bool true)
    else if s = "false" then some (.bool false)
    else some (.str s)
  | _ => none

/-- The `while` body of `parse_parameters`. -/
def parseParamsLoop : Nat → List Token → Nat → Params → Except String (Params × Nat)
  | 0, toks, pos, _ => .error (parseErr (curTok toks pos) "parser fuel exhausted")
  | f + 1, toks, pos, params =>
    if (curTok toks pos).type = .RPAREN then .ok (params, advancePos toks pos)
    else
      match expectTok toks pos .IDENTIFIER with
      | .error e => .error e
      | .ok (keyTok, pos) =>
        match expectTok toks pos .EQUALS with
        | .error e => .error e
        | .ok (_, pos) =>
          let vTok := curTok toks pos
          match paramValOf vTok with
          | none =>
            .error (parseErr vTok ("Expected parameter value, got " ++ ttName vTok.type))
          | some v =>
            let pos := advancePos toks pos
            let params := paramsSet params keyTok.value v
            let pos :=
              if (curTok toks pos).type = .COMMA then advancePos toks pos else pos
            parseParamsLoop f toks pos params

/-- Embeds `Parser.parse_parameters`. -/
def parseParams (toks : List Token) (pos : Nat) : Except String (Params × Nat) :=
  match expectTok toks pos .LPAREN with
  | .error e => .error e
  | .ok (_, pos) => parseParamsLoop (toks.length + 1) toks pos []

/-- Embeds `Parser.parse_path`. -/
def parsePath (toks : List Token) (pos : Nat) : Except String (String × Nat) :=
  let tok := curTok toks pos
  if tok.type = .PATH then .ok (tok.value, advancePos toks pos)
  else .error (parseErr tok ("Expected path, got " ++ ttName tok.type))

/-- The optional leading parameter list of every directive rule. -/
def parseOptParams (toks : List Token) (pos : Nat) : Except String (Params × Nat) :=
  if (curTok toks pos).type = .LPAREN then parseParams toks pos
  else .ok ([], pos)

/-- The collection loop of `parse_content_until`. -/
def contentLoop (endT : TokenType) :
    Nat → List Token → Nat → List String → Except String (String × Nat)
  | 0, toks, pos, _ => .error (parseErr (curTok toks pos) "parser fuel exhausted")
  | f + 1, toks, pos, parts =>
    let tok := curTok toks pos
    if tok.type = endT ∨ tok.type = .EOF then .ok (String.join parts, pos)
    else
      match tok.type with
      | .CONTENT => contentLoop endT f toks (advancePos toks pos) (parts ++ [tok.value])
      | .NEWLINE => contentLoop endT f toks (advancePos toks pos) parts
      | .DIRECTIVE_START =>
        if (peekTok toks pos).type = endT then .ok (String.join parts, pos)
        else .error (parseErr tok "Unexpected directive in content block")
      | _ => .error (parseErr tok ("Unexpected token in content: " ++ ttName tok.type))

/-- Embeds `Parser.parse_content_until`. -/
def parseContentUntil (toks : List Token) (pos : Nat) (endT : TokenType) :
    Except String (String × Nat) :=
  contentLoop endT (toks.length + 1) toks (skipNLs toks pos) []

/-- The single trailing-newline strip applied to each BEFORE/AFTER body. -/
def stripTrailNL (s : String) : String :=
  if s.data.getLast? = some '\n' then String.mk s.data.dropLast else s

/-- Embeds `Parser.parse_before_after_block`. -/
def parseBABlock (toks : List Token) (pos : Nat) :
    Except String (BeforeAfterBlock × Nat) :=
  match expectTok toks pos .DIRECTIVE_START with
  | .error e => .error e
  | .ok (_, pos) =>
  match expectTok toks pos .BEFORE with
  | .error e => .error e
  | .ok (_, pos) =>
  match parseContentUntil toks (skipNLs toks pos) .END_BEFORE with
  | .error e => .error e
  | .ok (beforeC, pos) =>
  match expectTok toks pos .DIRECTIVE_START with
  | .error e => .error e
  | .ok (_, pos) =>
  match expectTok toks pos .END_BEFORE with
  | .error e => .error e
  | .ok (_, pos) =>
  let pos := skipNLs toks pos
  match expectTok toks pos .DIRECTIVE_START with
  | .error e => .error e
  | .ok (_, pos) =>
  match expectTok toks pos .AFTER with
  | .error e => .error e
  | .ok (_, pos) =>
  match parseContentUntil toks (skipNLs toks pos) .END_AFTER with
  | .error e => .error e
  | .ok (afterC, pos) =>
  match expectTok toks pos .DIRECTIVE_START with
  | .error e => .error e
  | .ok (_, pos) =>
  match expectTok toks pos .END_AFTER with
  | .error e => .error e
  | .ok (_, pos) =>
  let pos := skipNLs toks pos
  .ok (⟨stripTrailNL beforeC, stripTrailNL afterC⟩, pos)

/-- Embeds `parse_create_directive`. -/
def parseCreate (toks : List Token) (pos line column : Nat) :
    Except String (Directive × Nat) :=
  match parseOptParams toks pos with
  | .error e => .error e
  | .ok (params, pos) =>
  match parsePath toks pos with
  | .error e => .error e
  | .ok (path, pos) =>
  match parseContentUntil toks (skipNLs toks pos) .END_CREATE with
  | .error e => .error e
  | .ok (content, pos) =>
  match expectTok toks pos .DIRECTIVE_START with
  | .error e => .error e
  | .ok (_, pos) =>
  match expectTok toks pos .END_CREATE with
  | .error e => .error e
  | .ok (_, pos) =>
  .ok (.create line column params path content, skipNLs toks pos)

/-- Embeds `parse_delete_directive`. -/
def parseDelete (toks : List Token) (pos line column : Nat) :
    Except String (Directive × Nat) :=
  match parseOptParams toks pos with
  | .error e => .error e
  | .ok (params, pos) =>
  match parsePath toks pos with
  | .error e => .error e
  | .ok (path, pos) =>
  .ok (.delete line column params path, skipNLs toks pos)

/-- Python `paths.split(None, 1)`: split at the first whitespace run,
leading whitespace ignored, the remainder kept verbatim. -/
def splitFirstWS (s : List Char) : List (List Char) :=
  let t := s.dropWhile pySpace
  if t.isEmpty then []
  else
    let first := t.takeWhile (fun c => !pySpace c)
    let rest := (t.dropWhile (fun c => !pySpace c)).dropWhile pySpace
    if rest.isEmpty then [first] else [first, rest]

/-- Embeds `parse_move_directive`. -/
def parseMove (toks : List Token) (pos line column : Nat) :
    Except String (Directive × Nat) :=
  match parseOptParams toks pos with
  | .error e => .error e
  | .ok (params, pos) =>
  let pathTok := curTok toks pos
  if !(pathTok.type = .PATH) then
    .error (parseErr pathTok "Expected source and destination paths for MOVE")
  else
    match splitFirstWS pathTok.value.data with
    | [src, dst] =>
      .ok (.move line column params (String.mk src) (String.mk dst),
           skipNLs toks (advancePos toks pos))
    | _ => .error (parseErr pathTok "MOVE requires both source and destination paths")

/-- Embeds `parse_read_directive`. -/
def parseRead (toks : List Token) (pos line column : Nat) :
    Except String (Directive × Nat) :=
  match parseOptParams toks pos with
  | .error e => .error e
  | .ok (params, pos) =>
  match parsePath toks pos with
  | .error e => .error e
  | .ok (path, pos) =>
  .ok (.readf line column params path, skipNLs toks pos)

/-- Embeds `parse_tree_directive`. -/
def parseTree (toks : List Token) (pos line column : Nat) :
    Except String (Directive × Nat) :=
  match parseOptParams toks pos with
  | .error e => .error e
  | .ok (params, pos) =>
  match parsePath toks pos with
  | .error e => .error e
  | .ok (path, pos) =>
  .ok (.tree line column params path, skipNLs toks pos)

/-- Embeds `parse_overwrite_file_directive`. -/
def parseOverwrite (toks : List Token) (pos line column : Nat) :
    Except String (Directive × Nat) :=
  match parseOptParams toks pos with
  | .error e => .error e
  | .ok (params, pos) =>
  match parsePath toks pos with
  | .error e => .error e
  | .ok (path, pos) =>
  match parseContentUntil toks (skipNLs toks pos) .END_OVERWRITE_FILE with
  | .error e => .error e
  | .ok (content, pos) =>
  match expectTok toks pos .DIRECTIVE_START with
  | .error e => .error e
  | .ok (_, pos) =>
  match expectTok toks pos .END_OVERWRITE_FILE with
  | .error e => .error e
  | .ok (_, pos) =>
  .ok (.overwriteFile line column params path content, skipNLs toks pos)

/-- Embeds `parse_find_directive`. -/
def parseFind (toks : List Token) (pos line column : Nat) :
    Except String (Directive × Nat) :=
  match parseOptParams toks pos with
  | .error e => .error e
  | .ok (params, pos) =>
  match parsePath toks pos with
  | .error e => .error e
  | .ok (path, pos) =>
  .ok (.find line column params path, skipNLs toks pos)

/-- The BEFORE/AFTER block-collection loop of
`parse_search_and_replace_directive` (lines 299-316). A header immediately
followed by its END marker exits the loop with an empty block list. -/
def snrLoop : Nat → List Token → Nat → List BeforeAfterBlock →
    Except String (List BeforeAfterBlock × Nat)
  | 0, toks, pos, _ => .error (parseErr (curTok toks pos) "parser fuel exhausted")
  | f + 1, toks, pos, blocks =>
    let tok := curTok toks pos
    if tok.type = .DIRECTIVE_START then
      let nt := peekTok toks pos
      if nt.type = .END_SEARCH_AND_REPLACE then .ok (blocks, pos)
      else if nt.type = .BEFORE then
        match parseBABlock toks pos with
        | .error e => .error e
        | .ok (b, pos) => snrLoop f toks pos (blocks ++ [b])
      else
        .error (parseErr nt
          ("Expected BEFORE or END_SEARCH_AND_REPLACE, got " ++ ttName nt.type))
    else if tok.type = .EOF then
      .error (parseErr tok "Unexpected EOF in SEARCH_AND_REPLACE block")
    else snrLoop f toks (advancePos toks pos) blocks

/-- Embeds `parse_search_and_replace_directive`. -/
def parseSnR (toks : List Token) (pos line column : Nat) :
    Except String (Directive × Nat) :=
  match parseOptParams toks pos with
  | .error e => .error e
  | .ok (params, pos) =>
  match parsePath toks pos with
  | .error e => .error e
  | .ok (path, pos) =>
  match snrLoop (toks.length + 1) toks (skipNLs toks pos) [] with
  | .error e => .error e
  | .ok (blocks, pos) =>
  match expectTok toks pos .DIRECTIVE_START with
  | .error e => .error e
  | .ok (_, pos) =>
  match expectTok toks pos .END_SEARCH_AND_REPLACE with
  | .error e => .error e
  | .ok (_, pos) =>
  .ok (.searchAndReplace line column params path blocks, skipNLs toks pos)

/-- Embeds `Parser.parse_directive`. The `elif directive_token.type == TokenType.RUN`
branch of the source compares against an enum member that does not exist in
`lexer.py`; no token stream can reach it, so it has no counterpart here. -/
def parseDirective (toks : List Token) (pos : Nat) : Except String (Directive × Nat) :=
  let tok := curTok toks pos
  if !(tok.type = .DIRECTIVE_START) then
    .error (parseErr tok ("Expected @Kif directive, got " ++ ttName tok.type))
  else
    let pos := advancePos toks pos
    let dTok := curTok toks pos
    let pos := advancePos toks pos
    match dTok.type with
    | .CREATE => parseCreate toks pos tok.line tok.column
    | .DELETE => parseDelete toks pos tok.line tok.column
    | .MOVE => parseMove toks pos tok.line tok.column
    | .READ => parseRead toks pos tok.line tok.column
    | .TREE => parseTree toks pos tok.line tok.column
    | .OVERWRITE_FILE => parseOverwrite toks pos tok.line tok.column
    | .SEARCH_AND_REPLACE => parseSnR toks pos tok.line tok.column
    | .FIND => parseFind toks pos tok.line tok.column
    | _ => .error (parseErr dTok ("Unknown directive: " ++ dTok.value))

/-- The top-level loop of `Parser.parse`. -/
def progLoop : Nat → List Token → Nat → List Directive → Except String (List Directive)
  | 0, toks, pos, _ => .error (parseErr (curTok toks pos) "parser fuel exhausted")
  | f + 1, toks, pos, acc =>
    if (curTok toks pos).type = .EOF then .ok acc
    else
      match parseDirective toks pos with
      | .error e => .error e
      | .ok (d, pos) => progLoop f toks pos (acc ++ [d])

/-- Embeds `Parser.parse`. -/
def parseProgram (toks : List Token) : Except String Program :=
  match progLoop (toks.length + 1) toks (skipNLs toks 0) [] with
  | .error e => .error e
  | .ok ds => .ok ⟨ds⟩

/-- The front half of `parse_kifdiff`: tokenize, then parse. -/
def parseKifdiffDoc (text : String) : Except String Program :=
  match tokenize text with
  | .error e => .error e
  | .ok toks => parseProgram toks

/-! ## Execution (`KifDiff/core/executor.py` and the directive handlers)

The filesystem is a flat file table; a stored path is a regular file.
Directories, I/O failures and the interactive prompt's terminal are outside
the model (the prompt's reply is a constant of the run configuration).
The backup service writes only under its own session directory (spec
section 6: the core only observes whether it ran), so it does not appear in
the file table. -/

structure FS where
  files : List (String × String)
deriving DecidableEq, Repr

/-- Embeds `os.path.exists`. -/
def FS.existsP (fs : FS) (p : String) : Bool :=
  fs.files.any (fun kv => kv.1 == p)

/-- Embeds `open(p).read()`, as an `Option`. -/
def FS.read (fs : FS) (p : String) : Option String :=
  (fs.files.find? (fun kv => kv.1 == p)).map (fun kv => kv.2)

/-- Embeds `open(p, 'w').write(v)`: replace in place, or append a new entry. -/
def FS.write (fs : FS) (p v : String) : FS :=
  if fs.files.any (fun kv => kv.1 == p) then
    ⟨fs.files.map (fun kv => if kv.1 == p then (p, v) else kv)⟩
  else ⟨fs.files ++ [(p, v)]⟩

/-- Embeds `os.remove`. -/
def FS.remove (fs : FS) (p : String) : FS :=
  ⟨fs.files.filter (fun kv => !(kv.1 == p))⟩

/-- Embeds `Stats` (`KifDiff/core/stats.py`). -/
structure Stats where
  created : Nat := 0
  deleted : Nat := 0
  modified : Nat := 0
  failed : Nat := 0
  skipped : Nat := 0
  clipboard_files : List String := []
  clipboard_dirs : List String := []
  clipboard_errors : List String := []
deriving DecidableEq, Repr

/-- The run configuration (`args`), read-only during a run. `userAccepts`
models the reply typed at the `input()` prompt in interactive mode. -/
structure Config where
  dryRun : Bool := false
  interactive : Bool := false
  noBackup : Bool := true
  verbose : Bool := false
  userAccepts : Bool := true
deriving DecidableEq, Repr

/-- The external collaborators of spec section 6 that the handlers call:
the `re` regex library (an invalid pattern is `regexValid = false`,
matching `re.error`), and the RUN command-execution collaborator, which
turns every outcome into a stats update. -/
structure Externals where
  regexValid : String → Bool
  regexFind : String → String → List Nat
  regexSubAll : String → String → String → String
  regexSubCount : String → String → String → Nat → String
  runCmd : String → Params → Stats → Stats

/-- A concrete instantiation for witnesses: every pattern is invalid and
the command collaborator reports nothing. -/
def noExternals : Externals :=
  ⟨fun _ => false, fun _ _ => [], fun _ _ c => c, fun _ _ c _ => c, fun _ _ s => s⟩

/-- Python truthiness of a parameter value, as used by `params.get(...)`
in boolean positions. -/
def PVal.truthy : PVal → Bool
  | .bool b => b
  | .int n => !(n = 0)
  | .str s => !(s = "")

def getBoolParam (ps : Params) (k : String) (d : Bool) : Bool :=
  match paramsGet ps k with
  | none => d
  | some v => v.truthy

/-- Integer parameter (only a well-typed int is usable as a count in the
Python source; any other stored value would be a `TypeError` there). -/
def getNatParam (ps : Params) (k : String) (d : Nat) : Nat :=
  match paramsGet ps k with
  | some (.int n) => n
  | some (.bool b) => if b then 1 else 0
  | _ => d

/-- The four replacement-mode parameters of SEARCH_AND_REPLACE. -/
structure SRFlags where
  replaceAll : Bool
  count : Nat
  ignoreWs : Bool
  useRegex : Bool
deriving DecidableEq, Repr

/-- Parameter extraction at the top of `SearchReplaceDirective.execute`. -/
def flagsOf (params : Params) : SRFlags :=
  ⟨getBoolParam params "replace_all" false,
   getNatParam params "count" 1,
   getBoolParam params "ignore_whitespace" false,
   getBoolParam params "regex" false⟩

/-- Embeds `SearchReplaceDirective._process_single_block`: `none` is the `False`
return (no match, or invalid regex); `some c` is the `True` return with
`self._last_content = c`. Matching compares the (optionally whitespace-
normalized) texts; the replacement itself always operates on the original
`content` with the original `before`/`after` values. -/
def processSingleBlock (ext : Externals) (cfg : Config) (fl : SRFlags)
    (content before after : String) : Option String :=
  let searchBefore :=
    if fl.ignoreWs then String.mk (normalizeWhitespace before.data) else before
  let searchContent :=
    if fl.ignoreWs then String.mk (normalizeWhitespace content.data) else content
  if fl.useRegex then
    if !ext.regexValid searchBefore then none
    else if (ext.regexFind searchBefore searchContent).isEmpty then none
    else if cfg.dryRun then some content
    else if cfg.interactive && !cfg.userAccepts then some content
    else if fl.replaceAll then some (ext.regexSubAll searchBefore after content)
    else some (ext.regexSubCount searchBefore after content fl.count)
  else
    if !containsSub searchBefore.data searchContent.data then none
    else if cfg.dryRun then some content
    else if cfg.interactive && !cfg.userAccepts then some content
    else if fl.replaceAll then
      some (String.mk (pyReplaceAll content.data before.data after.data))
    else
      some (String.mk (literalCountReplace content.data before.data after.data fl.count))

/-- The sequential block loop of `SearchReplaceDirective.execute`
(lines 101-117): each block searches the output of the previous one; the
first failing block aborts the rest. -/
def runBlocks (ext : Externals) (cfg : Config) (fl : SRFlags) :
    List BeforeAfterBlock → String → Option String
  | [], content => some content
  | b :: rest, content =>
    match processSingleBlock ext cfg fl content b.before b.after with
    | none => none
    | some c' => runBlocks ext cfg fl rest c'

/-- Embeds `SearchReplaceDirective.execute`: a missing file is a failure; all
blocks are applied to the in-memory content; the file is written once at
the end, and `stats.modified` is incremented — on every success path,
including dry-run, where each block leaves the content unchanged. -/
def searchReplaceExec (ext : Externals) (cfg : Config) (path : String)
    (blocks : List BeforeAfterBlock) (params : Params) (fs : FS) (stats : Stats) :
    FS × Stats × Bool :=
  if !fs.existsP path then
    (fs, { stats with failed := stats.failed + 1 }, false)
  else
    let content := (fs.read path).getD ""
    match runBlocks ext cfg (flagsOf params) blocks content with
    | none => (fs, { stats with failed := stats.failed + 1 }, false)
    | some final =>
      (fs.write path final, { stats with modified := stats.modified + 1 }, true)

/-- Embeds `DeleteExecutor.execute` (`src/core/executors/delete.py`): a missing
file is a skip, never a failure. -/
def deleteExec (cfg : Config) (path : String) (fs : FS) (stats : Stats) :
    FS × Stats × Bool :=
  if !fs.existsP path then
    (fs, { stats with skipped := stats.skipped + 1 }, true)
  else if cfg.dryRun then
    (fs, { stats with skipped := stats.skipped + 1 }, true)
  else if cfg.interactive && !cfg.userAccepts then
    (fs, { stats with skipped := stats.skipped + 1 }, true)
  else
    (fs.remove path, { stats with deleted := stats.deleted + 1 }, true)

/-- Embeds `MoveDirective.execute` (`KifDiff/core/directives/move.py`): a missing
source is a failure. -/
def moveExec (cfg : Config) (source dest : String) (fs : FS) (stats : Stats) :
    FS × Stats × Bool :=
  if !fs.existsP source then
    (fs, { stats with failed := stats.failed + 1 }, false)
  else if cfg.dryRun then
    (fs, { stats with skipped := stats.skipped + 1 }, true)
  else if cfg.interactive && !cfg.userAccepts then
    (fs, { stats with skipped := stats.skipped + 1 }, true)
  else
    let content := (fs.read source).getD ""
    ((fs.remove source).write dest content,
     { stats with modified := stats.modified + 1 }, true)

/-- Embeds `ReadDirective.execute` (`KifDiff/core/directives/read.py`), with the
pyperclip collaborator present: a successful read is counted in
`stats.modified` and the path recorded in `clipboard_files`; a missing
file is a failure recorded in `clipboard_errors`. No file is written. -/
def readExec (path : String) (fs : FS) (stats : Stats) : FS × Stats × Bool :=
  match fs.read path with
  | none =>
    (fs, { stats with
            failed := stats.failed + 1,
            clipboard_errors := stats.clipboard_errors ++ ["READ: " ++ path] },
     false)
  | some _ =>
    (fs, { stats with
            modified := stats.modified + 1,
            clipboard_files := stats.clipboard_files ++ [path] },
     true)

/-- Embeds `CreateExecutor.execute` (`src/core/executors/create.py`); parent
directories always exist in the flat model. -/
def createExec (cfg : Config) (path content : String) (fs : FS) (stats : Stats) :
    FS × Stats × Bool :=
  if cfg.dryRun then (fs, { stats with skipped := stats.skipped + 1 }, true)
  else if cfg.interactive && !cfg.userAccepts then
    (fs, { stats with skipped := stats.skipped + 1 }, true)
  else (fs.write path content, { stats with created := stats.created + 1 }, true)

/-- Embeds `OverwriteDirective.execute` (`KifDiff/core/directives/overwrite.py`). -/
def overwriteExec (cfg : Config) (path content : String) (fs : FS) (stats : Stats) :
    FS × Stats × Bool :=
  if cfg.dryRun then (fs, { stats with skipped := stats.skipped + 1 }, true)
  else (fs.write path content, { stats with modified := stats.modified + 1 }, true)

/-- Embeds `TreeExecutor.execute` (`src/core/executors/tree.py`): a missing path
fails; in the flat model every stored path is a regular file, so an
existing path hits the `not os.path.isdir` failure branch. -/
def treeExec (path : String) (fs : FS) (stats : Stats) : FS × Stats × Bool :=
  if !fs.existsP path then
    (fs, { stats with
            failed := stats.failed + 1,
            clipboard_errors := stats.clipboard_errors ++ ["TREE: " ++ path] },
     false)
  else
    (fs, { stats with
            failed := stats.failed + 1,
            clipboard_errors := stats.clipboard_errors ++ ["TREE: " ++ path] },
     false)

/-- Embeds `FindExecutor.execute` (`src/core/executors/find.py`): a missing path
fails; an existing path is a regular file in the flat model, so the
`not os.path.isdir` failure branch is taken. -/
def findExec (path : String) (fs : FS) (stats : Stats) : FS × Stats × Bool :=
  if !fs.existsP path then
    (fs, { stats with failed := stats.failed + 1 }, false)
  else
    (fs, { stats with failed := stats.failed + 1 }, false)

/-- Embeds `ASTExecutor.execute_directive`: exhaustive dispatch on the variant.
The embedded handlers are total, so the surrounding fault boundary of
`ASTExecutor.execute` has no exception path to catch. The RUN handler is
delegated entirely to the external command collaborator. -/
def execDirective (ext : Externals) (cfg : Config) (fs : FS) (stats : Stats) :
    Directive → FS × Stats
  | .create _ _ _ path content => ((createExec cfg path content fs stats).1, (createExec cfg path content fs stats).2.1)
  | .delete _ _ _ path => ((deleteExec cfg path fs stats).1, (deleteExec cfg path fs stats).2.1)
  | .move _ _ _ source dest => ((moveExec cfg source dest fs stats).1, (moveExec cfg source dest fs stats).2.1)
  | .readf _ _ _ path => ((readExec path fs stats).1, (readExec path fs stats).2.1)
  | .tree _ _ _ path => ((treeExec path fs stats).1, (treeExec path fs stats).2.1)
  | .overwriteFile _ _ _ path content => ((overwriteExec cfg path content fs stats).1, (overwriteExec cfg path content fs stats).2.1)
  | .searchAndReplace _ _ params path blocks => ((searchReplaceExec ext cfg path blocks params fs stats).1, (searchReplaceExec ext cfg path blocks params fs stats).2.1)
  | .find _ _ _ path => ((findExec path fs stats).1, (findExec path fs stats).2.1)
  | .run _ _ params command => (fs, ext.runCmd command params stats)

/-- Embeds `ASTExecutor.execute`: the directives run strictly in document order;
a failing directive updates the statistics and the run continues. -/
def execProgram (ext : Externals) (cfg : Config) :
    List Directive → FS → Stats → FS × Stats
  | [], fs, stats => (fs, stats)
  | d :: rest, fs, stats =>
    let r := execDirective ext cfg fs stats d
    execProgram ext cfg rest r.1 r.2

/-- Embeds `parse_kifdiff` (`KifDiff/core/parser.py`, lines 428-469): tokenize,
parse, then execute; a `SyntaxError` from either front-end stage is caught,
`stats.failed` is incremented, and the function returns before the executor
is ever constructed — no directive runs and the filesystem is untouched. -/
def runKifdiff (ext : Externals) (cfg : Config) (text : String) (fs : FS)
    (stats : Stats) : FS × Stats :=
  match tokenize text with
  | .error _ => (fs, { stats with failed := stats.failed + 1 })
  | .ok toks =>
    match parseProgram toks with
    | .error _ => (fs, { stats with failed := stats.failed + 1 })
    | .ok prog => execProgram ext cfg prog.directives fs stats

/-- Did an `Except` computation succeed? -/
def exceptOk : Except String Program → Bool
  | .ok _ => true
  | .error _ => false

deriving instance DecidableEq for Except

/-- A document whose first directive is well-formed and whose
SEARCH_AND_REPLACE is missing its AFTER marker. -/
def docMissingAfter : String :=
  "@Kif DELETE old.txt\n@Kif SEARCH_AND_REPLACE f.txt\n@Kif BEFORE\nx\n@Kif END_BEFORE\n@Kif END_SEARCH_AND_REPLACE"

/-- A SEARCH_AND_REPLACE header immediately followed by its END marker. -/
def sarZeroBlocksDoc : String :=
  "@Kif SEARCH_AND_REPLACE notes.txt\n@Kif END_SEARCH_AND_REPLACE"


/-! ## Claims -/

/-- C1: for every input document, if the lexer or the parser raises a
failure, no directive of that document is executed and no file is modified
(the filesystem is returned untouched and the statistics change only by the
single `failed` increment of the abort path), even if earlier directives in
the same document are well-formed. -/
theorem lex_or_parse_failure_executes_nothing
    (ext : Externals) (cfg : Config) (text : String) (fs : FS) (stats : Stats)
    (h : exceptOk (parseKifdiffDoc text) = false) :
    runKifdiff ext cfg text fs stats = (fs, { stats with failed := stats.failed + 1 }) := by
  unfold runKifdiff
  unfold parseKifdiffDoc at h
  cases htok : tokenize text with
  | error e => rfl
  | ok toks =>
    rw [htok] at h
    cases hp : parseProgram toks with
    | error e => simp [hp]
    | ok prog => dsimp only at h; rw [hp] at h; simp [exceptOk] at h

theorem lex_or_parse_failure_executes_nothing_witness :
    runKifdiff noExternals {} docMissingAfter ⟨[("old.txt", "o")]⟩ {} =
      (⟨[("old.txt", "o")]⟩, { failed := 1 }) :=
  lex_or_parse_failure_executes_nothing noExternals {} docMissingAfter
    ⟨[("old.txt", "o")]⟩ {} (by decide)

/-- C2: for a path that does not exist at execution time, Delete counts a
skip (never a failure), Move with that source counts a failure, and
SearchAndReplace on that path counts a failure; in each case the dispatcher
continues with the remaining directives. -/
theorem missing_path_classification
    (ext : Externals) (cfg : Config) (path dest : String)
    (blocks : List BeforeAfterBlock) (params ps : Params) (fs : FS)
    (stats : Stats) (rest : List Directive) (l c : Nat)
    (h : fs.existsP path = false) :
    deleteExec cfg path fs stats = (fs, { stats with skipped := stats.skipped + 1 }, true)
  ∧ moveExec cfg path dest fs stats = (fs, { stats with failed := stats.failed + 1 }, false)
  ∧ searchReplaceExec ext cfg path blocks params fs stats
      = (fs, { stats with failed := stats.failed + 1 }, false)
  ∧ execProgram ext cfg (.delete l c ps path :: rest) fs stats
      = execProgram ext cfg rest fs { stats with skipped := stats.skipped + 1 }
  ∧ execProgram ext cfg (.move l c ps path dest :: rest) fs stats
      = execProgram ext cfg rest fs { stats with failed := stats.failed + 1 }
  ∧ execProgram ext cfg (.searchAndReplace l c ps path blocks :: rest) fs stats
      = execProgram ext cfg rest fs { stats with failed := stats.failed + 1 } := by
  refine ⟨?_, ?_, ?_, ?_, ?_, ?_⟩ <;>
    simp [deleteExec, moveExec, searchReplaceExec, execProgram, execDirective, h]

theorem missing_path_classification_witness :
    deleteExec {} "ghost.txt" ⟨[("a.txt", "x")]⟩ {} =
      (⟨[("a.txt", "x")]⟩, { skipped := 1 }, true)
  ∧ moveExec {} "ghost.txt" "d.txt" ⟨[("a.txt", "x")]⟩ {} =
      (⟨[("a.txt", "x")]⟩, { failed := 1 }, false)
  ∧ searchReplaceExec noExternals {} "ghost.txt" [] [] ⟨[("a.txt", "x")]⟩ {} =
      (⟨[("a.txt", "x")]⟩, { failed := 1 }, false) := by
  have h := missing_path_classification noExternals {} "ghost.txt" "d.txt" [] [] []
    ⟨[("a.txt", "x")]⟩ {} [] 1 1 (by decide)
  exact ⟨h.1, h.2.1, h.2.2.1⟩

/-- C10: a successful READ increments `stats.modified` by exactly one and
appends the path to `clipboard_files`, writing no file; a READ of a missing
file increments `stats.failed` and records the path in `clipboard_errors`;
either way the dispatcher continues with the rest of the program. -/
theorem read_directive_effects
    (ext : Externals) (cfg : Config) (path : String) (fs : FS) (stats : Stats)
    (rest : List Directive) (l c : Nat) (ps : Params) :
    (∀ content, fs.read path = some content →
      readExec path fs stats =
        (fs, { stats with
                modified := stats.modified + 1,
                clipboard_files := stats.clipboard_files ++ [path] }, true))
  ∧ (fs.read path = none →
      readExec path fs stats =
        (fs, { stats with
                failed := stats.failed + 1,
                clipboard_errors := stats.clipboard_errors ++ ["READ: " ++ path] }, false))
  ∧ execProgram ext cfg (.readf l c ps path :: rest) fs stats
      = execProgram ext cfg rest (readExec path fs stats).1 (readExec path fs stats).2.1 := by
  refine ⟨fun content hc => ?_, fun hn => ?_, ?_⟩
  · simp [readExec, hc]
  · simp [readExec, hn]
  · simp [execProgram, execDirective]

theorem read_directive_effects_witness :
    readExec "a.txt" ⟨[("a.txt", "hello")]⟩ {} =
      (⟨[("a.txt", "hello")]⟩, { modified := 1, clipboard_files := ["a.txt"] }, true)
  ∧ readExec "nope.txt" ⟨[("a.txt", "hello")]⟩ {} =
      (⟨[("a.txt", "hello")]⟩,
       { failed := 1, clipboard_errors := ["READ: nope.txt"] }, false) := by
  refine ⟨?_, ?_⟩
  · exact (read_directive_effects noExternals {} "a.txt" ⟨[("a.txt", "hello")]⟩ {} [] 1 1 []).1
      "hello" (by decide)
  · exact (read_directive_effects noExternals {} "nope.txt" ⟨[("a.txt", "hello")]⟩ {} [] 1 1 []).2.1
      (by decide)

/-- C7 (failing input): the claim says the tokenizer's vocabulary includes
RUN, but `TokenType` has no RUN member and `directive_map` has no RUN
entry, so lexing a RUN directive is an unknown-directive lex failure — even
though `ast_nodes.py` defines `RunDirective` and `parse_run_directive`
exists (and `parser.py` line 388 compares against a nonexistent
`TokenType.RUN`). -/
theorem run_directive_rejected_by_lexer :
    tokenize "@Kif RUN echo hi" =
      .error "Lexer error at line 1, column 9: Unknown directive: RUN" := by
  rfl

/-- C8 (counterexample): the parse succeeds and the resulting
SearchAndReplace directive has an empty blocks list, contradicting the
claimed non-emptiness invariant. -/
theorem snr_zero_blocks_accepted :
    parseKifdiffDoc sarZeroBlocksDoc =
      .ok ⟨[.searchAndReplace 1 1 [] "notes.txt" []]⟩ := by
  decide

set_option maxHeartbeats 2000000 in
/-- C8 (amended): the block-collection loop of
`parse_search_and_replace_directive` exits as soon as it sees the END
marker, so a header immediately followed by its END marker parses
successfully into a directive whose blocks list is empty — the parser does
not enforce at least one BEFORE/AFTER pair. -/
theorem snr_header_then_end_parses_empty
    (p v1 v2 v3 v4 : String) (l1 c1 l2 c2 l3 c3 l4 c4 l5 c5 l6 c6 l7 c7 : Nat) :
    parseProgram
      [⟨.DIRECTIVE_START, v1, l1, c1⟩, ⟨.SEARCH_AND_REPLACE, v2, l2, c2⟩,
       ⟨.PATH, p, l3, c3⟩, ⟨.NEWLINE, v3, l4, c4⟩,
       ⟨.DIRECTIVE_START, v1, l5, c5⟩, ⟨.END_SEARCH_AND_REPLACE, v4, l6, c6⟩,
       ⟨.EOF, "", l7, c7⟩] =
      .ok ⟨[.searchAndReplace l1 c1 [] p []]⟩ := by
  rfl

/-- C4 (failing input): a SEARCH_AND_REPLACE whose only block matches,
executed with dryRun enabled. The matching is still performed (a
non-matching block still fails, second conjunct), and the file's contents
are unchanged — but the handler rewrites the file and counts the run in
`stats.modified`, not in `stats.skipped` as the claim (and the spec's
"counted skipped") requires: `_process_single_block` returns early on
dry-run, while `SearchReplaceDirective.execute` lines 119-129 write the
file and increment `stats.modified` unconditionally on the success path. -/
theorem snr_dry_run_counts_modified :
    searchReplaceExec noExternals { dryRun := true } "f.txt"
        [⟨"hello", "goodbye"⟩] [] ⟨[("f.txt", "hello world")]⟩ {} =
      (⟨[("f.txt", "hello world")]⟩, { modified := 1 }, true)
  ∧ searchReplaceExec noExternals { dryRun := true } "f.txt"
        [⟨"absent", "goodbye"⟩] [] ⟨[("f.txt", "hello world")]⟩ {} =
      (⟨[("f.txt", "hello world")]⟩, { failed := 1 }, false) := by
  exact ⟨by decide, by decide⟩

/-- C6: in content-collection mode an occurrence of the sentinel whose
peeked-ahead directive name is not a terminator/block-starter is buffered
verbatim — the step consumes exactly the one character, emits no token and
stays in content mode (the lookahead is a pure function of the cursor, so
the rewind is implicit); only a genuine terminator/block-starter flushes
the buffer as a single CONTENT token and leaves content mode before the
directive is processed. Hence content containing the sentinel string is
never tokenized as a directive. -/
theorem content_mode_sentinel_lookahead (st : LexSt) (ch : Char) (rs : List Char)
    (hc : st.inContent = true) (hr : st.cur.rest = ch :: rs)
    (hs : sentinelAt st.cur = true) :
    (contentBreakers.contains (peekDirName st.cur) = false →
      lexStep st = .ok { st with cur := st.cur.adv1, buf := st.buf ++ [ch] })
  ∧ (contentBreakers.contains (peekDirName st.cur) = true →
      lexStep st = processDirective (flushBuf st)
      ∧ (st.buf ≠ [] →
          flushBuf st =
            { st with
              toks := st.toks ++ [⟨.CONTENT, String.mk st.buf, st.bufLine, st.bufCol⟩],
              buf := [], inContent := false })) := by
  constructor
  · intro hnb
    have hmem : peekDirName st.cur ∉ contentBreakers := by simpa using hnb
    simp [lexStep, hc, hs, bufferOne, hr, hmem]
  · intro hb
    have hmem : peekDirName st.cur ∈ contentBreakers := by simpa using hb
    constructor
    · simp [lexStep, hc, hs, hmem]
    · intro hne
      simp [flushBuf, hne]

/-- A concrete content-mode state at the sentinel, inside a CREATE body
with buffer `"x"`, for the two branches of the lookahead. -/
def lexStContent (tail : List Char) : LexSt :=
  ⟨⟨'@' :: 'K' :: 'i' :: 'f' :: tail, 3, 1⟩, [], true, ['x'], 2, 1⟩

theorem content_mode_sentinel_lookahead_witness :
    lexStep (lexStContent (' ' :: 'w' :: 'o' :: 'w' :: [])) =
      .ok { lexStContent (' ' :: 'w' :: 'o' :: 'w' :: []) with
            cur := (lexStContent (' ' :: 'w' :: 'o' :: 'w' :: [])).cur.adv1,
            buf := ['x', '@'] }
  ∧ lexStep (lexStContent (' ' :: 'E' :: 'N' :: 'D' :: '_' :: 'C' :: 'R' :: 'E' :: 'A' :: 'T' :: 'E' :: [])) =
      processDirective (flushBuf (lexStContent (' ' :: 'E' :: 'N' :: 'D' :: '_' :: 'C' :: 'R' :: 'E' :: 'A' :: 'T' :: 'E' :: []))) := by
  constructor
  · exact (content_mode_sentinel_lookahead _ '@' _ rfl rfl (by decide)).1 (by decide)
  · exact ((content_mode_sentinel_lookahead _ '@' _ rfl rfl (by decide)).2 (by decide)).1

/-- If a prefix of the block list succeeds and the next block fails, the
whole sequential application fails. -/
theorem runBlocks_append_fail (ext : Externals) (cfg : Config) (fl : SRFlags)
    (bs₁ bs₂ : List BeforeAfterBlock) (b : BeforeAfterBlock) (c₀ c₁ : String)
    (h1 : runBlocks ext cfg fl bs₁ c₀ = some c₁)
    (h2 : processSingleBlock ext cfg fl c₁ b.before b.after = none) :
    runBlocks ext cfg fl (bs₁ ++ b :: bs₂) c₀ = none := by
  induction bs₁ generalizing c₀ with
  | nil =>
    simp [runBlocks] at h1
    subst h1
    simp [runBlocks, h2]
  | cons hd tl ih =>
    simp only [List.cons_append, runBlocks] at h1 ⊢
    cases hp : processSingleBlock ext cfg fl c₀ hd.before hd.after with
    | none => simp [hp] at h1
    | some c' =>
      rw [hp] at h1
      exact ih c' h1

/-- C9: SEARCH_AND_REPLACE is atomic on disk. The blocks are applied
sequentially to the in-memory content; if any block fails to match (or its
regex is invalid — `processSingleBlock` returns `none` in both cases), the
handler increments `stats.failed` and returns with the filesystem exactly
as it was, even when an arbitrary prefix of blocks had already succeeded;
the file is written (once) only when every block has succeeded. -/
theorem snr_atomic_on_disk (ext : Externals) (cfg : Config) (path : String)
    (params : Params) (fs : FS) (stats : Stats) :
    (∀ (bs₁ bs₂ : List BeforeAfterBlock) (b : BeforeAfterBlock) (c₁ : String),
      fs.existsP path = true →
      runBlocks ext cfg (flagsOf params) bs₁ ((fs.read path).getD "") = some c₁ →
      processSingleBlock ext cfg (flagsOf params) c₁ b.before b.after = none →
      searchReplaceExec ext cfg path (bs₁ ++ b :: bs₂) params fs stats
        = (fs, { stats with failed := stats.failed + 1 }, false))
  ∧ (∀ (blocks : List BeforeAfterBlock) (final : String),
      fs.existsP path = true →
      runBlocks ext cfg (flagsOf params) blocks ((fs.read path).getD "") = some final →
      searchReplaceExec ext cfg path blocks params fs stats
        = (fs.write path final, { stats with modified := stats.modified + 1 }, true)) := by
  constructor
  · intro bs₁ bs₂ b c₁ hex h1 h2
    have hall := runBlocks_append_fail ext cfg (flagsOf params) bs₁ bs₂ b _ c₁ h1 h2
    simp [searchReplaceExec, hex, hall]
  · intro blocks final hex h1
    simp [searchReplaceExec, hex, h1]

theorem snr_atomic_on_disk_witness :
    searchReplaceExec noExternals {} "f.txt" [⟨"a", "X"⟩, ⟨"zzz", "w"⟩] []
        ⟨[("f.txt", "abc")]⟩ {} =
      (⟨[("f.txt", "abc")]⟩, { failed := 1 }, false)
  ∧ searchReplaceExec noExternals {} "f.txt" [⟨"a", "X"⟩] []
        ⟨[("f.txt", "abc")]⟩ {} =
      ((FS.mk [("f.txt", "abc")]).write "f.txt" "Xbc", { modified := 1 }, true) := by
  constructor
  · exact (snr_atomic_on_disk noExternals {} "f.txt" [] ⟨[("f.txt", "abc")]⟩ {}).1
      [⟨"a", "X"⟩] [] ⟨"zzz", "w"⟩ "Xbc" (by decide) (by decide) (by decide)
  · exact (snr_atomic_on_disk noExternals {} "f.txt" [] ⟨[("f.txt", "abc")]⟩ {}).2
      [⟨"a", "X"⟩] "Xbc" (by decide) (by decide)

/-- Python `hay.find('')` is `0`: the empty needle always occurs. -/
theorem findIdx?_nil_needle (hay : List Char) : findIdx? [] hay = some 0 := by
  cases hay <;> simp [findIdx?, isPre]

/-- With no literal occurrence of `before`, the bounded literal replacement
returns the content unchanged. -/
theorem literalCountReplace_no_occ (content before after : List Char) (n : Nat)
    (h : findIdx? before content = none) :
    literalCountReplace content before after n = content := by
  unfold literalCountReplace
  split
  · simp [pyReplace1, h]
  · cases n with
    | zero => rfl
    | succ m => simp [replLoop, h]

/-- With no literal occurrence of `before`, the unbounded literal
replacement returns the content unchanged. -/
theorem pyReplaceAll_no_occ (content before after : List Char)
    (h : findIdx? before content = none) :
    pyReplaceAll content before after = content := by
  have hne : before ≠ [] := by
    intro he
    rw [he, findIdx?_nil_needle] at h
    exact Option.noConfusion h
  unfold pyReplaceAll
  rw [if_neg hne]
  simp [replAllF, h]

/-- C5 (counterexample): with `ignore_whitespace=true`, a content whose
span equals the before text only up to trailing per-line whitespace makes
the block match and report success — but the replacement, which operates on
the original non-stripped texts, finds no literal occurrence and writes
nothing: the after value `"X"` does not appear in the output, which is the
unchanged input. -/
theorem ignore_ws_match_without_written_replacement :
    processSingleBlock noExternals {} ⟨false, 1, true, false⟩ "a \nb" "a\nb" "X"
      = some "a \nb" := by
  decide

/-- C5 (amended): with `ignore_whitespace=true`, matching compares the
before text and the content with trailing per-line whitespace stripped on
both sides, only for the comparison; on a match the block succeeds, and the
replacement is performed on the original content with the original before
and after texts — so a span that differs from `before` only in trailing
whitespace is left unchanged (no after value is written there), while a
literal occurrence of `before` is replaced with the original, non-stripped
after value. -/
theorem ignore_ws_comparison_only (ext : Externals) (cfg : Config)
    (content before after : String) (repAll : Bool) (cnt : Nat)
    (hdry : cfg.dryRun = false) (hint : cfg.interactive = false)
    (hmatch : containsSub (normalizeWhitespace before.data)
        (normalizeWhitespace content.data) = true) :
    processSingleBlock ext cfg ⟨repAll, cnt, true, false⟩ content before after
      = some (if repAll then String.mk (pyReplaceAll content.data before.data after.data)
              else String.mk (literalCountReplace content.data before.data after.data cnt))
  ∧ (findIdx? before.data content.data = none →
      processSingleBlock ext cfg ⟨repAll, cnt, true, false⟩ content before after
        = some content) := by
  have hmain :
      processSingleBlock ext cfg ⟨repAll, cnt, true, false⟩ content before after
        = some (if repAll then String.mk (pyReplaceAll content.data before.data after.data)
                else String.mk (literalCountReplace content.data before.data after.data cnt)) := by
    cases repAll <;> simp [processSingleBlock, hdry, hint, hmatch]
  refine ⟨hmain, fun hno => ?_⟩
  rw [hmain]
  rw [literalCountReplace_no_occ _ _ _ _ hno, pyReplaceAll_no_occ _ _ _ hno]
  cases repAll <;> rfl

theorem ignore_ws_comparison_only_witness :
    processSingleBlock noExternals {} ⟨false, 1, true, false⟩ "a \nb" "a\nb" "X"
      = some (String.mk (literalCountReplace ("a \nb").data ("a\nb").data ("X").data 1))
  ∧ processSingleBlock noExternals {} ⟨false, 1, true, false⟩ "a \nb" "a\nb" "X"
      = some "a \nb" := by
  constructor
  · exact (ignore_ws_comparison_only noExternals {} "a \nb" "a\nb" "X" false 1
      rfl rfl (by decide)).1
  · exact (ignore_ws_comparison_only noExternals {} "a \nb" "a\nb" "X" false 1
      rfl rfl (by decide)).2 (by decide)

/-- A prefix is no longer than the list it prefixes. -/
theorem isPre_length (needle : List Char) :
    ∀ hay, isPre needle hay = true → needle.length ≤ hay.length := by
  induction needle with
  | nil => intro hay _; simp
  | cons a as ih =>
    intro hay h
    cases hay with
    | nil => simp [isPre] at h
    | cons b bs =>
      simp only [isPre, Bool.and_eq_true] at h
      simpa [List.length_cons] using ih bs h.2

/-- A reported occurrence index fits inside the haystack. -/
theorem findIdx?_bound (needle : List Char) :
    ∀ (hay : List Char) (i : Nat), findIdx? needle hay = some i →
      i + needle.length ≤ hay.length := by
  intro hay
  induction hay with
  | nil =>
    intro i h
    unfold findIdx? at h
    split at h
    · rename_i hp
      cases needle with
      | nil =>
        simp at h
        omega
      | cons a as => simp [isPre] at hp
    · exact Option.noConfusion h
  | cons c rest ih =>
    intro i h
    unfold findIdx? at h
    split at h
    · rename_i hp
      have hi : i = 0 := by
        have := h
        simp at this
        omega
      subst hi
      simpa using isPre_length needle (c :: rest) hp
    · cases hf : findIdx? needle rest with
      | none => rw [hf] at h; simp at h
      | some j =>
        rw [hf] at h
        simp at h
        have := ih j hf
        simp only [List.length_cons]
        omega

/-- For a nonempty needle the occurrence scan is independent of the fuel,
as long as there is more fuel than characters. -/
theorem occsF_fuel (needle : List Char) (hne : needle ≠ []) :
    ∀ (n : Nat) (hay : List Char), hay.length ≤ n →
      ∀ (f g base : Nat), hay.length < f → hay.length < g →
        occsF needle f hay base = occsF needle g hay base := by
  intro n
  induction n with
  | zero =>
    intro hay hlen f g base hf hg
    have hhe : hay = [] := List.length_eq_zero.mp (Nat.le_zero.mp hlen)
    subst hhe
    cases f with
    | zero => omega
    | succ f =>
      cases g with
      | zero => omega
      | succ g =>
        have hfi : findIdx? needle [] = none := by
          cases needle with
          | nil => exact absurd rfl hne
          | cons a as => simp [findIdx?, isPre]
        simp [occsF, hfi]
  | succ n ih =>
    intro hay hlen f g base hf hg
    cases f with
    | zero => omega
    | succ f =>
      cases g with
      | zero => omega
      | succ g =>
        simp only [occsF]
        cases hfi : findIdx? needle hay with
        | none => rfl
        | some i =>
          have hbound := findIdx?_bound needle hay i hfi
          have hL : 1 ≤ needle.length := by
            cases needle with
            | nil => exact absurd rfl hne
            | cons a as => simp
          dsimp only
          congr 1
          apply ih
          · simp only [List.length_drop]; omega
          · simp only [List.length_drop]; omega
          · simp only [List.length_drop]; omega

/-- The base offset only shifts every reported position. -/
theorem occsF_base (needle : List Char) :
    ∀ (f : Nat) (hay : List Char) (base : Nat),
      occsF needle f hay base = (occsF needle f hay 0).map (fun p => base + p) := by
  intro f
  induction f with
  | zero => intro hay base; simp [occsF]
  | succ f ih =>
    intro hay base
    simp only [occsF]
    cases hfi : findIdx? needle hay with
    | none => simp
    | some i =>
      simp only [List.map_cons]
      congr 1
      · omega
      · rw [ih (hay.drop (i + needle.length)) (base + i + needle.length),
            ih (hay.drop (i + needle.length)) (0 + i + needle.length),
            List.map_map]
        congr 1
        funext p
        simp only [Function.comp]
        omega

/-- Unfolding the greedy occurrence list at its first occurrence: the rest
of the positions are the occurrences of the remainder, shifted past the
end of the first span. -/
theorem occs_cons (needle : List Char) (hne : needle ≠ []) (hay : List Char)
    (i : Nat) (hf : findIdx? needle hay = some i) :
    occs needle hay =
      i :: (occs needle (hay.drop (i + needle.length))).map
            (fun p => i + needle.length + p) := by
  have hbound := findIdx?_bound needle hay i hf
  have hL : 1 ≤ needle.length := by
    cases needle with
    | nil => exact absurd rfl hne
    | cons a as => simp
  have h1 : occs needle hay =
      (0 + i) :: occsF needle hay.length (hay.drop (i + needle.length))
        (0 + i + needle.length) := by
    show occsF needle (hay.length + 1) hay 0 = _
    simp only [occsF]
    rw [hf]
  have h2 : occsF needle hay.length (hay.drop (i + needle.length)) 0 =
      occsF needle ((hay.drop (i + needle.length)).length + 1)
        (hay.drop (i + needle.length)) 0 := by
    apply occsF_fuel needle hne (hay.drop (i + needle.length)).length _ le_rfl
    · simp only [List.length_drop]; omega
    · simp only [List.length_drop]; omega
  rw [h1]
  simp only [Nat.zero_add]
  congr 1
  rw [occsF_base needle hay.length (hay.drop (i + needle.length)) (i + needle.length), h2]
  rfl

/-- Reading `getD` through a uniform shift of the positions. -/
theorem getD_map_add (c : Nat) :
    ∀ (l : List Nat) (k : Nat), k < l.length →
      (l.map (fun p => c + p)).getD k 0 = c + l.getD k 0 := by
  intro l
  induction l with
  | nil => intro k h; simp at h
  | cons x xs ih =>
    intro k h
    cases k with
    | zero => simp
    | succ k =>
      simp only [List.map_cons, List.getD_cons_succ]
      exact ih k (by simpa using h)

/-- Splicing over shifted positions equals splicing over the dropped
content: the rebuild only ever reads the content from the spans' offsets
onward. -/
theorem spliceTo_shift (content after : List Char) (L k : Nat) :
    ∀ (ps : List Nat) (start : Nat),
      spliceTo content after L (k + start) (ps.map (fun p => k + p)) =
        spliceTo (content.drop k) after L start ps := by
  intro ps
  induction ps with
  | nil => intro start; rfl
  | cons p rest ih =>
    intro start
    simp only [List.map_cons, spliceTo]
    have hA : (content.drop (k + start)).take (k + p - (k + start)) =
        ((content.drop k).drop start).take (p - start) := by
      rw [List.drop_drop, Nat.add_sub_add_left]
    rw [hA]
    have hrec := ih (p + L)
    rw [show k + p + L = k + (p + L) by omega, hrec]

/-- Python `str.replace(b, a, 1)` coincides with one pass of the manual loop. -/
theorem pyReplace1_eq_replLoop1 (content before after : List Char) :
    pyReplace1 content before after = replLoop before after 1 content := by
  unfold pyReplace1 replLoop
  cases hf : findIdx? before content with
  | none => rfl
  | some i => simp [replLoop]

/-- The manual replacement loop, run `N+1` times within the occurrence
count, rebuilds the document as: the first `N+1` greedy occurrence spans
replaced by `after` (segments between them copied from the original), then
the original suffix strictly after the `(N+1)`-st span, byte-identical. -/
theorem replLoop_splice (before after : List Char) (hb : before ≠ []) :
    ∀ (N : Nat) (content : List Char),
      N + 1 ≤ (occs before content).length →
      replLoop before after (N + 1) content =
        spliceTo content after before.length 0 ((occs before content).take (N + 1)) ++
          content.drop ((occs before content).getD N 0 + before.length) := by
  intro N
  induction N with
  | zero =>
    intro content hN
    cases hf : findIdx? before content with
    | none =>
      exfalso
      have hemp : occs before content = [] := by
        show occsF before (content.length + 1) content 0 = []
        simp only [occsF]
        rw [hf]
      rw [hemp] at hN
      simp at hN
    | some i =>
      have hcons := occs_cons before hb content i hf
      rw [hcons]
      simp only [replLoop, List.take_succ_cons, List.take_zero, List.getD_cons_zero]
      rw [hf]
      simp [spliceTo, List.append_assoc]
  | succ N ih =>
    intro content hN
    cases hf : findIdx? before content with
    | none =>
      exfalso
      have hemp : occs before content = [] := by
        show occsF before (content.length + 1) content 0 = []
        simp only [occsF]
        rw [hf]
      rw [hemp] at hN
      simp at hN
    | some i =>
      have hcons := occs_cons before hb content i hf
      have hlen : N + 1 ≤ (occs before (content.drop (i + before.length))).length := by
        rw [hcons] at hN
        simpa using hN
      have ihrem := ih (content.drop (i + before.length)) hlen
      rw [hcons]
      simp only [List.take_succ_cons, List.getD_cons_succ]
      show (match findIdx? before content with
            | none => content
            | some i =>
                content.take i ++ after ++
                  replLoop before after (N + 1) (content.drop (i + before.length))) = _
      rw [hf]
      dsimp only
      rw [ihrem]
      rw [← List.map_take]
      rw [getD_map_add (i + before.length) _ N (by omega)]
      simp only [spliceTo, List.drop_zero, Nat.sub_zero]
      have hsh := spliceTo_shift content after before.length (i + before.length)
        ((occs before (content.drop (i + before.length))).take (N + 1)) 0
      rw [Nat.add_zero] at hsh
      rw [hsh]
      have hdrop :
          (content.drop (i + before.length)).drop
              ((occs before (content.drop (i + before.length))).getD N 0 + before.length) =
            content.drop
              (i + before.length +
                (occs before (content.drop (i + before.length))).getD N 0 + before.length) := by
        rw [List.drop_drop]
        congr 1
        omega
      rw [hdrop]
      simp [List.append_assoc]

/-- C3: for literal (non-regex) bounded replacement with
`replace_all=false` and `1 ≤ N ≤` the number of greedy non-overlapping
occurrences of `before`, the implementation substitutes exactly the first
`N` left-to-right occurrences — the output is the original content with
`after` spliced over those `N` spans — and the suffix of the output strictly
after the `N`-th replaced span is byte-identical to the corresponding
suffix of the original content (`content.drop (pN + |before|)`). -/
theorem literal_count_replaces_first_n (content before after : List Char) (N : Nat)
    (hb : before ≠ []) (h1 : 1 ≤ N) (hN : N ≤ (occs before content).length) :
    literalCountReplace content before after N =
      spliceTo content after before.length 0 ((occs before content).take N) ++
        content.drop ((occs before content).getD (N - 1) 0 + before.length) := by
  obtain ⟨M, rfl⟩ : ∃ M, N = M + 1 := ⟨N - 1, by omega⟩
  unfold literalCountReplace
  split
  · rename_i hone
    have hM : M = 0 := by omega
    subst hM
    rw [pyReplace1_eq_replLoop1]
    simpa using replLoop_splice before after hb 0 content hN
  · simpa using replLoop_splice before after hb M content hN

theorem literal_count_replaces_first_n_witness :
    literalCountReplace "XabYabZab".data "ab".data "Q".data 2 =
      spliceTo "XabYabZab".data "Q".data ("ab".data).length 0
          ((occs "ab".data "XabYabZab".data).take 2) ++
        "XabYabZab".data.drop
          ((occs "ab".data "XabYabZab".data).getD 1 0 + ("ab".data).length)
  ∧ literalCountReplace "XabYabZab".data "ab".data "Q".data 2 = "XQYQZab".data := by
  constructor
  · exact literal_count_replaces_first_n "XabYabZab".data "ab".data "Q".data 2
      (by decide) (by decide) (by decide)
  · decide
